import Mathlib

/-!
Verification development for the tinyproxy per-connection request pipeline
(src/reqs.c).  The C code is shallowly embedded: strings are `List Char`
or `String` (a wrapper around `List Char`), machine integers are `Nat`
with explicit `% 65536` where `uint16_t` conversion matters, fallible C
functions return `Option`, and socket traffic is represented by explicit
lists of bytes/lines.  Functions from files of the repository that are not
part of `src/` (hashmap.c, buffer.c, sock.c, anonymous.c, utils.c) are
modelled from the specification and marked as such in their doc comments.
-/

namespace Tinyproxy

/-! ### Character classes (C `isspace`/digits in the "C" locale) -/

/-- The C `isspace` class in the "C" locale: space (0x20) and 0x09..0x0D.
This is the whitespace class used by `sscanf` whitespace directives and
by the `%s`/`%hu` conversions' leading-whitespace skip. -/
def isSpaceC (c : Char) : Bool := c.toNat = 32 || (9 ≤ c.toNat && c.toNat ≤ 13)

/-- ASCII decimal digit, as consumed by the `%hu` and `%u` conversions. -/
def isDigitC (c : Char) : Bool := 48 ≤ c.toNat && c.toNat ≤ 57

/-- Numeric value of a digit string (most significant digit first). -/
def natOfDigits (ds : List Char) : Nat :=
  ds.foldl (fun a c => a * 10 + (c.toNat - 48)) 0

/-! ### sscanf building blocks

Each `sscanf` format used by reqs.c is compiled by hand into a chain of
the following scanners.  A scanner returns `none` exactly when the
corresponding conversion fails, in which case `sscanf` stops and reports
the number of conversions performed so far. -/

/-- A `%[...]` scanset conversion: the longest prefix whose characters
satisfy `p`; it fails (matches nothing) when that prefix is empty.
Scanset conversions do not skip leading whitespace. -/
def scanSet (p : Char → Bool) (cs : List Char) : Option (List Char × List Char) :=
  let t := cs.takeWhile p
  if t.isEmpty then none else some (t, cs.dropWhile p)

/-- A literal (non-whitespace) piece of the format string: must match
the input exactly. -/
def matchLit : List Char → List Char → Option (List Char)
  | [], cs => some cs
  | _ :: _, [] => none
  | l :: ls, c :: cs => if c = l then matchLit ls cs else none

/-- Digit run for `%hu` after sign handling; value is converted to
`unsigned short`, i.e. taken `% 65536`. -/
def scanHuDigits (cs : List Char) : Option (Nat × List Char) :=
  let ds := cs.takeWhile isDigitC
  if ds.isEmpty then none
  else some (natOfDigits ds % 65536, cs.dropWhile isDigitC)

/-- The `%hu` conversion: skip whitespace, optional sign, a nonempty digit
run; a negative value wraps modulo 2^16 as in the C conversion to
`unsigned short`. -/
def scanHu (cs : List Char) : Option (Nat × List Char) :=
  match cs.dropWhile isSpaceC with
  | [] => none
  | c :: r =>
    if c.toNat = 45 then
      (scanHuDigits r).map (fun p => ((65536 - p.1) % 65536, p.2))
    else if c.toNat = 43 then scanHuDigits r
    else scanHuDigits (c :: r)

/-- The `%s` conversion: skip whitespace, then the longest nonempty run of
non-whitespace characters. -/
def scanS (cs : List Char) : Option (List Char × List Char) :=
  scanSet (fun c => !isSpaceC c) (cs.dropWhile isSpaceC)

/-! ### extract_http_url (reqs.c lines 144-178)

`extract_http_url` tries four sscanf patterns in order, each restarting
from the beginning of the url:
  1. `"http://%[^:/]:%hu%s"` requiring 3 conversions,
  2. `"http://%[^/]%s"` requiring 2,
  3. `"http://%[^:/]:%hu"` requiring 2,
  4. `"http://%[^/]"` requiring 1,
and fails (returning -1, surfaced as 400) when all four fail. -/

/-- Scanset predicate `[^:/]`. -/
def notColonSlash (c : Char) : Bool := c.toNat != 58 && c.toNat != 47

/-- Scanset predicate `[^/]`. -/
def notSlash (c : Char) : Bool := c.toNat != 47

/-- A literal `:` in the format string immediately after a conversion:
the next input character must be `:`. -/
def expectColon : List Char → Option (List Char)
  | ':' :: r => some r
  | _ => none

/-- Pattern `"http://%[^:/]:%hu%s"` with all three conversions required. -/
def httpPat1 (url : List Char) : Option (List Char × Nat × List Char) :=
  (matchLit "http://".data url).bind fun r1 =>
  (scanSet notColonSlash r1).bind fun hr =>
  (expectColon hr.2).bind fun r3 =>
  (scanHu r3).bind fun pr =>
  (scanS pr.2).map fun (pa : List Char × List Char) => (hr.1, pr.1, pa.1)

/-- Pattern `"http://%[^/]%s"` with both conversions required; port
defaults to 80. -/
def httpPat2 (url : List Char) : Option (List Char × Nat × List Char) :=
  (matchLit "http://".data url).bind fun r1 =>
  (scanSet notSlash r1).bind fun hr =>
  (scanS hr.2).map fun pa => (hr.1, 80, pa.1)

/-- Pattern `"http://%[^:/]:%hu"` with both conversions required; path
defaults to "/". -/
def httpPat3 (url : List Char) : Option (List Char × Nat × List Char) :=
  (matchLit "http://".data url).bind fun r1 =>
  (scanSet notColonSlash r1).bind fun hr =>
  (expectColon hr.2).bind fun r3 =>
  (scanHu r3).map fun (pr : Nat × List Char) => (hr.1, pr.1, ['/'])

/-- Pattern `"http://%[^/]"`; port defaults to 80 and path to "/". -/
def httpPat4 (url : List Char) : Option (List Char × Nat × List Char) :=
  (matchLit "http://".data url).bind fun r1 =>
  (scanSet notSlash r1).map fun hr => (hr.1, 80, ['/'])

/-- reqs.c `extract_http_url`: the four patterns tried in order, yielding
(host, port, path). -/
def extract_http_url (url : List Char) : Option (List Char × Nat × List Char) :=
  (httpPat1 url).orElse fun _ =>
  (httpPat2 url).orElse fun _ =>
  (httpPat3 url).orElse fun _ =>
  httpPat4 url

/-! ### extract_ssl_url (reqs.c lines 183-201) -/

/-- Scanset predicate `[^:]`. -/
def notColon (c : Char) : Bool := c.toNat != 58

/-- Pattern `"%[^:]:%hu"` with both conversions required. -/
def sslPat1 (url : List Char) : Option (List Char × Nat) :=
  (scanSet notColon url).bind fun hr =>
  (expectColon hr.2).bind fun r2 =>
  (scanHu r2).map fun (pr : Nat × List Char) => (hr.1, pr.1)

/-- reqs.c `extract_ssl_url`: try `"%[^:]:%hu"`, then `"%s"` with the port
defaulting to 443. -/
def extract_ssl_url (url : List Char) : Option (List Char × Nat) :=
  (sslPat1 url).orElse fun _ =>
  (scanS url).map fun hr => (hr.1, 443)

/-! ### Request-line split (reqs.c lines 286-299)

`sscanf(request_line, "%[^ ] %[^ ] %[^ ]", method, url, protocol)`:
the scansets accept any byte except a space (notably tabs), while the
format-string blanks between them skip any run of whitespace.  A return
value below 2 yields a 400 response. -/

/-- Scanset predicate `[^ ]`: anything but a space (0x20). -/
def notSpace (c : Char) : Bool := c.toNat != 32

/-- The request-line sscanf.  `none` corresponds to a return value < 2
(the 400 case); otherwise method and url were assigned and the protocol
token is returned when the third conversion also succeeded. -/
def scanfRequestLine (line : List Char) :
    Option (List Char × List Char × Option (List Char)) :=
  (scanSet notSpace line).bind fun m =>
  (scanSet notSpace (m.2.dropWhile isSpaceC)).map fun u =>
  (m.1, u.1,
    (scanSet notSpace (u.2.dropWhile isSpaceC)).map (fun p => p.1))

/-! ### process_request (reqs.c lines 258-399) -/

/-- `strncasecmp(url, "http://", 7) == 0`, character by character with the
C-locale `tolower`. -/
def startsWithCI : List Char → List Char → Bool
  | [], _ => true
  | _ :: _, [] => false
  | p :: ps, c :: cs => decide (c.toLower = p.toLower) && startsWithCI ps cs

/-- The `memcpy(url, "http", 4)` scheme normalization performed before
`extract_http_url` is called. -/
def normalizeHttp (url : List Char) : List Char := "http".data ++ url.drop 4

/-- Parsed request view (struct request_s). `path` is `none` for CONNECT
requests, whose extractor never assigns a path. -/
structure RequestS where
  method : String
  host : String
  port : Nat
  path : Option String
deriving Repr, DecidableEq

/-- Process-wide configuration consumed by the pipeline (§6 of the spec):
optional upstream proxy, optional tunnel, optional stathost, filtering,
anonymity allow-list, optional X-Tinyproxy domain, and the idle timeout. -/
structure Config where
  upstream : Option (String × Nat) := none
  tunnel : Option (String × Nat) := none
  stathost : Option String := none
  filterEnabled : Bool := false
  filterMatch : String → Bool := fun _ => false
  anonEnabled : Bool := false
  anonList : List String := []
  myDomain : Option String := none
  idletimeout : Nat := 600

/-- Outcome of `process_request`: a 400 error response, a 404 on a
filtered domain, the stathost page, or a parsed request together with the
`connect_method` flag. -/
inductive ProcOutcome where
  | err400
  | err404filtered
  | stats
  | ok (r : RequestS) (connectMethod : Bool)
deriving Repr, DecidableEq

/-- The filter / stathost gates applied after a successful parse
(reqs.c lines 356-387). -/
def requestGates (cfg : Config) (r : RequestS) (cm : Bool) : ProcOutcome :=
  if cfg.filterEnabled && cfg.filterMatch r.host then .err404filtered
  else if cfg.stathost = some r.host then .stats
  else .ok r cm

/-- reqs.c `process_request`: split the request line, classify the url
(absolute HTTP url / CONNECT authority / otherwise 400), then apply the
filter and stathost gates. -/
def process_request (cfg : Config) (line : String) : ProcOutcome :=
  match scanfRequestLine line.data with
  | none => .err400
  | some (m, u, _proto) =>
    if startsWithCI "http://".data u then
      match extract_http_url (normalizeHttp u) with
      | none => .err400
      | some (h, pt, pa) =>
        requestGates cfg
          { method := ⟨m⟩, host := ⟨h⟩, port := pt, path := some ⟨pa⟩ } false
    else if (⟨m⟩ : String) = "CONNECT" then
      match extract_ssl_url u with
      | none => .err400
      | some (h, pt) =>
        requestGates cfg
          { method := "CONNECT", host := ⟨h⟩, port := pt, path := none } true
    else .err400

/-- The outbound TCP connection dialled by `handle_connection` for a given
request line: the tunnel target when a tunnel is configured, otherwise
the upstream proxy or the origin host, and nothing at all when
`process_request` aborts. -/
def serverDial (cfg : Config) (line : String) : Option (String × Nat) :=
  match cfg.tunnel with
  | some t => some t
  | none =>
    match process_request cfg line with
    | .ok r _ =>
      match cfg.upstream with
      | some u => some u
      | none => some (r.host, r.port)
    | _ => none

/-! ### Buffers and sizes -/

/-- Modelled from the spec: `MAXBUFFSIZE` is defined outside src/ (buffer.h);
§3 recommends 8 KiB or larger, identical for both directions. -/
def MAXBUFFSIZE : Nat := 8192

/-! ### Header map (hashmap.c is not under src/)

Modelled from the spec, §3 "Header Map": an unordered multi-entry mapping
from lowercased header name to raw value bytes, with insert,
case-insensitive lookup returning the first match, removal by key, and
enumeration of keys in insertion order. -/

/-- ASCII lowercasing of a header name (C `tolower` per byte). -/
def lowerS (s : String) : String := ⟨s.data.map Char.toLower⟩

/-- Modelled from the spec: the header map as an insertion-ordered
association list whose keys are stored lowercased. -/
abbrev Hashmap := List (String × String)

/-- Modelled from the spec: insert keyed by the lowercased name. -/
def hashmap_insert (m : Hashmap) (k v : String) : Hashmap := m ++ [(lowerS k, v)]

/-- Modelled from the spec: case-insensitive lookup, first match. -/
def hashmap_search (m : Hashmap) (k : String) : Option String :=
  (m.find? (fun e => e.1 == lowerS k)).map (fun e => e.2)

/-- Modelled from the spec: removal by (case-insensitive) key. -/
def hashmap_remove (m : Hashmap) (k : String) : Hashmap :=
  m.filter (fun e => e.1 != lowerS k)

/-- Modelled from the spec: key enumeration in insertion order. -/
def hashmap_keys (m : Hashmap) : List String := m.map (fun e => e.1)

/-! ### Header collection (reqs.c lines 469-516) -/

/-- reqs.c `add_header_to_connection`: split the (chomped) line at the
first `:`, blank out the run of `:`/space/tab bytes that follows, and
insert name/value into the map; a line with no `:` is an error. -/
def add_header_to_connection (m : Hashmap) (line : String) : Option Hashmap :=
  if line.data.any (fun c => c.toNat == 58) then
    let key := line.data.takeWhile (fun c => c.toNat != 58)
    let rest := line.data.dropWhile (fun c => c.toNat != 58)
    let val := rest.dropWhile (fun c => c.toNat == 58 || c.toNat == 32 || c.toNat == 9)
    some (hashmap_insert m ⟨key⟩ ⟨val⟩)
  else none

/-- reqs.c `get_all_headers`: client lines are read until the blank
(CRLF-only, here modelled as the chomped empty string) line; each header
line is added to the map; a missing terminator (end of stream) or a line
without `:` is an error.  Returns the map and the lines left unread. -/
def get_all_headers : List String → Hashmap → Option (Hashmap × List String)
  | [], _ => none
  | l :: rest, m =>
    if l = "" then some (m, rest)
    else
      match add_header_to_connection m l with
      | some m2 => get_all_headers rest m2
      | none => none

/-! ### Connection-header token removal (reqs.c lines 522-552) -/

/-- The delimiter set `"()<>@,;:\\\"/[]?={} \t"` used by `strpbrk` in
`remove_connection_headers`, by character code:
( ) < > @ , ; : backslash doublequote / [ ] ? = curly braces space tab. -/
def isConnDelim (c : Char) : Bool :=
  c.toNat = 40 || c.toNat = 41 || c.toNat = 60 || c.toNat = 62 || c.toNat = 64 ||
  c.toNat = 44 || c.toNat = 59 || c.toNat = 58 || c.toNat = 92 || c.toNat = 34 ||
  c.toNat = 47 || c.toNat = 91 || c.toNat = 93 || c.toNat = 63 || c.toNat = 61 ||
  c.toNat = 123 || c.toNat = 125 || c.toNat = 32 || c.toNat = 9

/-- Segments of a character list between delimiter occurrences (each
delimiter is overwritten with NUL by the C loop, so n delimiters yield
n+1 segments, possibly empty). -/
def splitSegs (p : Char → Bool) : List Char → List (List Char)
  | [] => [[]]
  | c :: cs =>
    if p c then [] :: splitSegs p cs
    else
      match splitSegs p cs with
      | [] => [[c]]
      | s :: ss => (c :: s) :: ss

/-- The tokens the C walk passes to `hashmap_remove`: the first segment is
removed even when empty (the walk starts at `data` unconditionally), and
after that the `while (*ptr == '\0') ptr++` skip drops empty segments. -/
def connRemovalTokens (data : List Char) : List (List Char) :=
  match splitSegs isConnDelim data with
  | [] => []
  | s :: ss => s :: ss.filter (fun t => !t.isEmpty)

/-- reqs.c `remove_connection_headers`: NUL out the delimiters of the
Connection header value and remove every walked token from the map. -/
def remove_connection_headers (m : Hashmap) (data : String) : Hashmap :=
  (connRemovalTokens data.data).foldl (fun acc t => hashmap_remove acc ⟨t⟩) m

/-! ### Client-header rewriting and emission (reqs.c lines 565-706) -/

/-- The fixed `skipheaders` denylist of reqs.c. -/
def skipheaders : List String :=
  ["host", "connection", "keep-alive", "proxy-authenticate",
   "proxy-authorization", "te", "trailers", "transfer-encoding", "upgrade"]

/-- C `atol` for the Content-Length value: optional whitespace, optional
sign, leading digit run (0 when none). -/
def atol (s : String) : Int :=
  let cs := s.data.dropWhile isSpaceC
  match cs with
  | [] => 0
  | c :: r =>
    if c.toNat = 45 then -((natOfDigits (r.takeWhile isDigitC) : Nat) : Int)
    else if c.toNat = 43 then ((natOfDigits (r.takeWhile isDigitC) : Nat) : Int)
    else ((natOfDigits (cs.takeWhile isDigitC) : Nat) : Int)

def PACKAGE : String := "tinyproxy"
def VERSION : String := "1.5.3"

/-- The proxy's own segment of the `Via` header value,
`%hu.%hu hostname (PACKAGE/VERSION)`. -/
def viaTail (proto : Nat × Nat) (hostname : String) : String :=
  toString (proto.1 % 65536) ++ "." ++ toString (proto.2 % 65536) ++ " " ++
    hostname ++ " (" ++ PACKAGE ++ "/" ++ VERSION ++ ")"

def upstreamConfigured (cfg : Config) : Bool := cfg.upstream.isSome

/-- Modelled from the spec: anonymous.c is not under src/; §4.4 step 5
says that with anonymity enabled a header is emitted only when its key is
in the allow-list, so `anonymous_search` returns 0 exactly on allow-listed
names (reqs.c line 679 emits when the result is 0). -/
def anonymous_search (cfg : Config) (k : String) : Int :=
  if cfg.anonList.contains k then 0 else 1

/-- Step 1 of the header rewriting (reqs.c lines 612-624): when a
`Connection` header is present, remove the headers its value lists and
then the `Connection` entry itself. -/
def connectionStage (m : Hashmap) : Hashmap :=
  match hashmap_search m "connection" with
  | some v => hashmap_remove (remove_connection_headers m v) "connection"
  | none => m

/-- The captured Content-Length value (reqs.c lines 630-633); -1 when the
header is absent. -/
def contentLengthOf (m1 : Hashmap) : Int :=
  match hashmap_search m1 "content-length" with
  | some v => atol v
  | none => -1

/-- The Via line written to the server (reqs.c lines 639-661): the
client's Via value, when present, with the proxy's own segment appended. -/
def viaLineOf (proto : Nat × Nat) (hostname : String) (m1 : Hashmap) : String × String :=
  match hashmap_search m1 "via" with
  | some v => ("Via", v ++ ", " ++ viaTail proto hostname)
  | none => ("Via", viaTail proto hostname)

/-- Removal of the client's own Via entry (reqs.c line 651). -/
def viaStage (m1 : Hashmap) : Hashmap :=
  match hashmap_search m1 "via" with
  | some _ => hashmap_remove m1 "via"
  | none => m1

/-- Removal of the fixed `skipheaders` denylist (reqs.c lines 666-668). -/
def skipStage (m2 : Hashmap) : Hashmap :=
  skipheaders.foldl (fun acc k => hashmap_remove acc k) m2

/-- The remaining-header emission loop (reqs.c lines 673-685): every key
in insertion order, emitted unless anonymity mode suppresses it, with the
first stored value for that key. -/
def anonEmit (cfg : Config) (m3 : Hashmap) : List (String × String) :=
  (hashmap_keys m3).filterMap (fun k =>
    if !cfg.anonEnabled || anonymous_search cfg k == 0 then
      some (k, (hashmap_search m3 k).getD "")
    else none)

/-- The optional X-Tinyproxy line (reqs.c lines 690-693). -/
def xtinyLines (cfg : Config) (clientIP : String) : List (String × String) :=
  match cfg.myDomain with
  | some _ => [("X-Tinyproxy", clientIP)]
  | none => []

/-- The header lines written to the server by `process_client_headers`
once the early-return guard has been passed (reqs.c lines 612-696), in
emission order: the `Via` line, the surviving client headers filtered by
the anonymity policy, and the optional `X-Tinyproxy` line; paired with
the captured `content_length`. -/
def clientHeaderLines (cfg : Config) (proto : Nat × Nat) (hostname clientIP : String)
    (m : Hashmap) : List (String × String) × Int :=
  let m1 := connectionStage m
  (viaLineOf proto hostname m1 ::
      (anonEmit cfg (skipStage (viaStage m1)) ++ xtinyLines cfg clientIP),
   contentLengthOf m1)

/-- The complete header section the proxy sends to the server for a
forwarded request, as name/value pairs: the `Host` and
`Connection: close` lines of `establish_http_connection` (emitted first,
reqs.c lines 206-225), then the `process_client_headers` emission. -/
def emittedUpstreamHeaders (cfg : Config) (proto : Nat × Nat)
    (hostname clientIP : String) (r : RequestS) (m : Hashmap) :
    List (String × String) :=
  ("Host", r.host) :: ("Connection", "close") ::
    (clientHeaderLines cfg proto hostname clientIP m).1

/-! ### Request-body pump (reqs.c lines 407-439) -/

/-- The do/while body of `pull_client_data`: each pass reads
`min(MAXBUFFSIZE, length)` bytes (`safe_read` delivers at most what the
client stream still holds, and returns 0 when the count is 0 or the peer
closed); a read result of 0 or less frees the buffer and fails; the
bytes are forwarded to the server unless a response was already sent;
the loop repeats while `length > 0`.  The `fuel` argument only bounds
the iteration count so the recursion is structural: it starts at
`length + 1` and each continuing pass consumes at least one byte of
`length`, so it is never exhausted. -/
def pull_loop (respSent : Bool) : Nat → List Nat → Nat → List Nat → Option (List Nat)
  | 0, _, _, _ => none
  | fuel + 1, client, length, acc =>
    if min (min MAXBUFFSIZE length) client.length = 0 then none
    else if 0 < length - min (min MAXBUFFSIZE length) client.length then
      pull_loop respSent fuel
        (client.drop (min (min MAXBUFFSIZE length) client.length))
        (length - min (min MAXBUFFSIZE length) client.length)
        (if respSent then acc
         else acc ++ client.take (min (min MAXBUFFSIZE length) client.length))
    else
      (if respSent then some acc
       else some (acc ++ client.take (min (min MAXBUFFSIZE length) client.length)))

/-- reqs.c `pull_client_data`: pump `length` bytes of request body from
the client, returning the bytes forwarded to the server, or `none` on
failure. -/
def pull_client_data (respSent : Bool) (client : List Nat) (length : Nat) :
    Option (List Nat) :=
  pull_loop respSent (length + 1) client length []

/-- Result of `process_client_headers`: the client lines left unread, the
header lines written to the server socket, the body bytes forwarded by
`pull_client_data`, and whether the function returned 0 (`true`) or
-1 (`false`). -/
structure PCHOut where
  remaining : List String
  serverHeaders : List (String × String)
  forwardedBody : List Nat
  ok : Bool
deriving Repr, DecidableEq

/-- reqs.c `process_client_headers`: always collect the complete header
block first; then the early-return guard (no server handle, or a direct
CONNECT with no upstream) emits nothing; otherwise rewrite and emit the
headers and pump a captured request body. -/
def process_client_headers (cfg : Config) (serverPresent connectMethod respSent : Bool)
    (proto : Nat × Nat) (hostname clientIP : String)
    (lines : List String) (body : List Nat) : PCHOut :=
  match get_all_headers lines [] with
  | none => { remaining := [], serverHeaders := [], forwardedBody := [], ok := false }
  | some (m, rest) =>
    if !serverPresent || (connectMethod && !upstreamConfigured cfg) then
      { remaining := rest, serverHeaders := [], forwardedBody := [], ok := true }
    else
      let (hdrs, clen) := clientHeaderLines cfg proto hostname clientIP m
      if 0 ≤ clen then
        match pull_client_data respSent body clen.toNat with
        | some fwd =>
          { remaining := rest, serverHeaders := hdrs, forwardedBody := fwd, ok := true }
        | none =>
          { remaining := rest, serverHeaders := hdrs, forwardedBody := [], ok := false }
      else
        { remaining := rest, serverHeaders := hdrs, forwardedBody := [], ok := true }

/-! ### Request-line emission (reqs.c lines 206-225 and 849-899) -/

/-- reqs.c `establish_http_connection`: the request line, `Host` and
`Connection: close` lines written to the server (CRLF terminators
elided). -/
def establish_http_connection (method path host : String) : List String :=
  [method ++ " " ++ path ++ " HTTP/1.0",
   "Host: " ++ host,
   "Connection: close"]

/-- `snprintf(dst, len, ...)` truncation: at most `len - 1` characters of
the formatted string are kept. -/
def snprintfTake (len : Nat) (s : String) : String := ⟨s.data.take (len - 1)⟩

/-- reqs.c `connect_to_upstream` path rewriting: the request path is
replaced by `host:port` (CONNECT) or `http://host:port path` (otherwise),
formatted through `snprintf` with the buffer sizes
`strlen(host) + 6` resp. `strlen(host) + strlen(path) + 14`. -/
def upstream_combined_string (connectMethod : Bool) (host path : String) (port : Nat) :
    String :=
  if connectMethod then
    snprintfTake (host.length + 6) (host ++ ":" ++ toString port)
  else
    snprintfTake (host.length + path.length + 14)
      ("http://" ++ host ++ ":" ++ toString port ++ path)

/-- The three request lines `connect_to_upstream` emits after dialling
the upstream: `establish_http_connection` applied to the rewritten
path. -/
def connect_to_upstream_lines (connectMethod : Bool) (r : RequestS) : List String :=
  establish_http_connection r.method
    (upstream_combined_string connectMethod r.host (r.path.getD "") r.port) r.host

/-! ### Relay engine (reqs.c lines 748-843) -/

/-- The two relay buffers: `sbuffer` holds server-to-client bytes,
`cbuffer` client-to-server bytes. -/
structure RelayConn where
  sbuffer : List Nat
  cbuffer : List Nat
deriving Repr, DecidableEq

/-- Outcome of one `select` call: timeout (ret = 0), error (ret < 0), or
readiness (ret > 0) carrying the raw readiness indications and the I/O
results for this iteration: `srvData`/`cliData` are the bytes a selected
read delivers (`none` = the read fails), `srvAccept`/`cliAccept` the
byte counts a selected write accepts (`none` = the write fails). -/
inductive SelectOutcome where
  | timeout
  | selError
  | ready (srvR cliR srvW cliW : Bool) (srvData cliData : Option (List Nat))
      (srvAccept cliAccept : Option Nat)
deriving Repr, DecidableEq

/-- One iteration's external observation: the clock when the iteration
starts computing the select timeout (`enter`), the clock when `select`
returns (`wake`), and the select outcome. -/
structure RelayEvent where
  enter : Nat
  wake : Nat
  outcome : SelectOutcome
deriving Repr, DecidableEq

/-- Result of one loop iteration. -/
inductive StepRes where
  | cont (st : RelayConn) (lastAccess : Nat)
  | exitNormal (st : RelayConn)
  | exitError (st : RelayConn)
  | exitBreak (st : RelayConn)
deriving Repr, DecidableEq

/-- Modelled from the spec: buffer.c is not under src/. `read_buffer`
appends the newly arrived bytes, reading at most the free space (§4.7
reads a side only into available room; invariant (i)); a read returning
0 or an error is `none`. -/
def read_buffer (buf : List Nat) (data : Option (List Nat)) : Option (List Nat) :=
  data.map fun d => buf ++ d.take (MAXBUFFSIZE - buf.length)

/-- Modelled from the spec: `write_buffer` writes a prefix of the buffer
and advances past it (§9, partial writes retried on the next readiness);
a write error is `none`. -/
def write_buffer (buf : List Nat) (accepted : Option Nat) : Option (List Nat) :=
  accepted.map fun n => buf.drop n

/-- The `tv.tv_sec` value of reqs.c line 767:
`config.idletimeout - difftime(time(NULL), last_access)`. -/
def relayTimeout (T last now : Nat) : Int := (T : Int) - ((now : Int) - (last : Int))

/-- One iteration of the relay loop (reqs.c lines 763-821): compute the
interest sets from the buffer sizes, wait, and on readiness refresh
`last_access` and perform the four guarded buffer operations in source
order, breaking on the first failure. -/
def relayStep (T : Nat) (st : RelayConn) (last : Nat) (e : RelayEvent) : Int × StepRes :=
  let wantCliW := decide (0 < st.sbuffer.length)
  let wantSrvW := decide (0 < st.cbuffer.length)
  let wantSrvR := decide (st.sbuffer.length < MAXBUFFSIZE)
  let wantCliR := decide (st.cbuffer.length < MAXBUFFSIZE)
  let tv := relayTimeout T last e.enter
  (tv,
    match e.outcome with
    | .timeout =>
      if T < e.wake - last then .exitNormal st else .cont st last
    | .selError => .exitError st
    | .ready sr cr sw cw sd cd sa ca =>
      let last2 := e.wake
      match (if wantSrvR && sr then read_buffer st.sbuffer sd else some st.sbuffer) with
      | none => .exitBreak st
      | some sb2 =>
        match (if wantCliR && cr then read_buffer st.cbuffer cd else some st.cbuffer) with
        | none => .exitBreak { st with sbuffer := sb2 }
        | some cb2 =>
          match (if wantSrvW && sw then write_buffer cb2 sa else some cb2) with
          | none => .exitBreak { sbuffer := sb2, cbuffer := cb2 }
          | some cb3 =>
            match (if wantCliW && cw then write_buffer sb2 ca else some sb2) with
            | none => .exitBreak { sbuffer := sb2, cbuffer := cb3 }
            | some sb3 => .cont { sbuffer := sb3, cbuffer := cb3 } last2)

/-- Result of running the relay loop over a trace of select events. -/
inductive RunRes where
  | outOfTrace (st : RelayConn) (lastAccess : Nat)
  | normal (st : RelayConn)
  | errored (st : RelayConn)
  | broke (st : RelayConn)
deriving Repr, DecidableEq

/-- The relay loop iterated over a trace of select events. -/
def relayRun (T : Nat) : List RelayEvent → RelayConn → Nat → RunRes
  | [], st, last => .outOfTrace st last
  | e :: es, st, last =>
    match (relayStep T st last e).2 with
    | .cont st2 last2 => relayRun T es st2 last2
    | .exitNormal st2 => .normal st2
    | .exitError st2 => .errored st2
    | .exitBreak st2 => .broke st2

/-- The post-loop flush of reqs.c lines 823-842: both drain loops call
`write_buffer(connptr->client_fd, ...)` — the first with `sbuffer`, the
second with `cbuffer` — so all remaining bytes go to the client socket
and none to the server socket.  Returns (bytes written to client, bytes
written to server), with the blocking writes succeeding. -/
def relay_after_loop (st : RelayConn) : List Nat × List Nat :=
  let toClient := st.sbuffer ++ st.cbuffer
  (toClient, ([] : List Nat))

/-! ### The four URL shapes as the spec states them

A spec-side definition, written from the claim's words for comparison
with `extract_http_url`: the four accepted shapes `http://H:P/Pa`,
`http://H/Pa`, `http://H:P`, `http://H` with defaults `port=80` and
`path="/"`, where `H` is a nonempty host containing neither `:` nor `/`,
`P` a nonempty digit run, and `Pa` begins with `/`. -/

def spec_four_shapes (v : List Char) : Option (List Char × Nat × List Char) :=
  let H := v.takeWhile notColonSlash
  let r := v.dropWhile notColonSlash
  if H.isEmpty then none
  else
    match r with
    | [] => some (H, 80, ['/'])
    | ':' :: r2 =>
      let P := r2.takeWhile isDigitC
      let r3 := r2.dropWhile isDigitC
      if P.isEmpty then none
      else
        match r3 with
        | [] => some (H, natOfDigits P, ['/'])
        | '/' :: _ => some (H, natOfDigits P, r3)
        | _ => none
    | '/' :: _ => some (H, 80, r)
    | _ => none

/-! ### Authority form and whitespace tokens (spec-side definitions) -/

/-- Authority form `H:P` as the spec's glossary states it (spec-side
definition, for comparison with `extract_ssl_url`): a nonempty colon-free
host, optionally followed by `:` and a nonempty all-digit port. -/
def isAuthorityForm (s : List Char) : Bool :=
  let h := s.takeWhile notColon
  let r := s.dropWhile notColon
  !h.isEmpty &&
    (r.isEmpty ||
      (match r with
       | ':' :: ds => !ds.isEmpty && ds.all isDigitC
       | _ => false))

/-- Whitespace-separated tokens of a line (spec-side definition: the
claim's "whitespace-separated tokens"): maximal nonempty runs of
non-whitespace characters. -/
def wsTokensAux : Nat → List Char → List (List Char)
  | 0, _ => []
  | fuel + 1, l =>
    match l.dropWhile isSpaceC with
    | [] => []
    | c :: r =>
      (c :: r.takeWhile (fun x => !isSpaceC x)) ::
        wsTokensAux fuel (r.dropWhile (fun x => !isSpaceC x))

def wsTokens (l : List Char) : List (List Char) := wsTokensAux (l.length + 1) l

/-! ### Toolkit: characters and spans -/

theorem char_toNat_ofNat_valid (n : Nat) (h : n.isValidChar) :
    (Char.ofNat n).toNat = n := by
  unfold Char.ofNat
  rw [dif_pos h]
  unfold Char.ofNatAux
  simp [Char.toNat, UInt32.toNat, UInt32.ofNatCore]

/-- `tolower` fixes every character that is not a lowercase letter target:
if `c.toLower` is some non-letter `d`, then `c` was already `d`. -/
theorem toLower_fix (c d : Char) (hd : d.toNat < 97 ∨ 122 < d.toNat)
    (h : c.toLower = d) : c = d := by
  simp only [Char.toLower] at h
  split at h
  · exfalso
    rename_i hc
    have hv : (c.toNat + 32).isValidChar := Or.inl (by omega)
    have h2 := char_toNat_ofNat_valid (c.toNat + 32) hv
    rw [h] at h2
    omega
  · exact h

theorem takeWhile_append_all {α : Type} {p : α → Bool} {a b : List α}
    (ha : a.all p = true) (hb : ∀ x l2, b = x :: l2 → p x = false) :
    (a ++ b).takeWhile p = a ∧ (a ++ b).dropWhile p = b := by
  induction a with
  | nil =>
    simp only [List.nil_append]
    cases b with
    | nil => simp
    | cons x xs =>
      have hx := hb x xs rfl
      constructor
      · exact List.takeWhile_cons_of_neg (by simp [hx])
      · exact List.dropWhile_cons_of_neg (by simp [hx])
  | cons x xs ih =>
    simp only [List.all_cons, Bool.and_eq_true] at ha
    have ihh := ih ha.2
    simp only [List.cons_append]
    constructor
    · rw [List.takeWhile_cons_of_pos ha.1, ihh.1]
    · rw [List.dropWhile_cons_of_pos ha.1, ihh.2]

theorem all_takeWhile {α : Type} (p : α → Bool) (l : List α) :
    (l.takeWhile p).all p = true := by
  induction l with
  | nil => simp
  | cons x xs ih =>
    by_cases h : p x = true
    · rw [List.takeWhile_cons_of_pos h]
      simp [h, ih]
    · rw [List.takeWhile_cons_of_neg h]
      simp

theorem matchLit_self_append (l r : List Char) : matchLit l (l ++ r) = some r := by
  induction l with
  | nil => rfl
  | cons x xs ih => simp [matchLit, ih]

/-! ### Toolkit: scanner lemmas -/

theorem scanSet_append {p : Char → Bool} {a b : List Char} (h0 : a ≠ [])
    (ha : a.all p = true) (hb : ∀ x l2, b = x :: l2 → p x = false) :
    scanSet p (a ++ b) = some (a, b) := by
  obtain ⟨ht, hd⟩ := takeWhile_append_all ha hb
  simp [scanSet, ht, hd, List.isEmpty_iff, h0]

theorem scanSet_fail {p : Char → Bool} {b : List Char}
    (hb : ∀ x l2, b = x :: l2 → p x = false) : scanSet p b = none := by
  cases b with
  | nil => rfl
  | cons x xs =>
    have hx := hb x xs rfl
    simp only [scanSet]
    rw [List.takeWhile_cons_of_neg (by simp [hx])]
    simp

theorem isDigitC_not_space {c : Char} (h : isDigitC c = true) :
    isSpaceC c = false ∧ c.toNat ≠ 45 ∧ c.toNat ≠ 43 ∧ c.toNat ≠ 47 ∧ c.toNat ≠ 58 := by
  simp only [isDigitC, Bool.and_eq_true, decide_eq_true_eq] at h
  refine ⟨?_, by omega, by omega, by omega, by omega⟩
  simp only [isSpaceC, Bool.or_eq_false_iff, Bool.and_eq_false_iff,
    decide_eq_false_iff_not]
  omega

theorem scanHuDigits_append {ds r : List Char} (h0 : ds ≠ [])
    (hd : ds.all isDigitC = true) (hr : ∀ x l2, r = x :: l2 → isDigitC x = false) :
    scanHuDigits (ds ++ r) = some (natOfDigits ds % 65536, r) := by
  obtain ⟨ht, hdr⟩ := takeWhile_append_all hd hr
  simp [scanHuDigits, ht, hdr, List.isEmpty_iff, h0]

theorem scanHu_append {ds r : List Char} (h0 : ds ≠ [])
    (hd : ds.all isDigitC = true) (hr : ∀ x l2, r = x :: l2 → isDigitC x = false) :
    scanHu (ds ++ r) = some (natOfDigits ds % 65536, r) := by
  obtain ⟨d, ds2, rfl⟩ : ∃ d ds2, ds = d :: ds2 := by
    cases ds with
    | nil => exact absurd rfl h0
    | cons d ds2 => exact ⟨d, ds2, rfl⟩
  have hdd : isDigitC d = true := by
    simp only [List.all_cons, Bool.and_eq_true] at hd
    exact hd.1
  obtain ⟨hsp, h45, h43, _, _⟩ := isDigitC_not_space hdd
  simp only [scanHu, List.cons_append]
  rw [List.dropWhile_cons_of_neg (by simp [hsp])]
  simp only [h45, h43, if_false]
  rw [← List.cons_append]
  exact scanHuDigits_append h0 hd hr

theorem scanS_all {a : List Char} (h0 : a ≠ []) (ha : a.all (fun c => !isSpaceC c) = true) :
    scanS a = some (a, []) := by
  obtain ⟨x, xs, rfl⟩ : ∃ x xs, a = x :: xs := by
    cases a with
    | nil => exact absurd rfl h0
    | cons x xs => exact ⟨x, xs, rfl⟩
  have hx : isSpaceC x = false := by
    simp only [List.all_cons, Bool.and_eq_true, Bool.not_eq_true'] at ha
    exact ha.1
  simp only [scanS]
  rw [List.dropWhile_cons_of_neg (by simp [hx])]
  have := scanSet_append (p := fun c => !isSpaceC c) (a := x :: xs) (b := [])
    (by simp) ha (by intro _ _ h; cases h)
  simpa using this

/-! ### Toolkit: Option orElse -/

theorem orElse_eq_none_parts {α : Type} {o : Option α} {f : Unit → Option α}
    (h : o.orElse f = none) : o = none ∧ f () = none := by
  cases o with
  | none => exact ⟨rfl, by simpa [Option.orElse] using h⟩
  | some a => simp [Option.orElse] at h

theorem orElse_some {α : Type} {o : Option α} {f : Unit → Option α} {a : α}
    (h : o = some a) : o.orElse f = some a := by
  subst h; rfl

theorem orElse_none {α : Type} {o : Option α} {f : Unit → Option α}
    (h : o = none) : o.orElse f = f () := by
  subst h; rfl

/-! ### Predicate bridges -/

theorem all_notSlash_of_notColonSlash {H : List Char}
    (h : H.all notColonSlash = true) : H.all notSlash = true := by
  rw [List.all_eq_true] at h ⊢
  intro x hx
  have hh := h x hx
  simp only [notColonSlash, Bool.and_eq_true] at hh
  exact hh.2

theorem all_notSlash_of_digits {P : List Char}
    (h : P.all isDigitC = true) : P.all notSlash = true := by
  rw [List.all_eq_true] at h ⊢
  intro x hx
  obtain ⟨_, _, _, h47, _⟩ := isDigitC_not_space (h x hx)
  simp only [notSlash, bne_iff_ne, ne_eq]
  exact h47

theorem char_eq_of_toNat {c : Char} {d : Char} (h : c.toNat = d.toNat) : c = d := by
  have h1 := Char.ofNat_toNat c
  have h2 := Char.ofNat_toNat d
  rw [h] at h1
  rw [← h1, h2]

theorem expectColon_cons (r : List Char) : expectColon (':' :: r) = some r := rfl

theorem expectColon_cons_ne {c : Char} {r : List Char} (h : c.toNat ≠ 58) :
    expectColon (c :: r) = none := by
  unfold expectColon
  split
  · rename_i heq
    injection heq with h1 _
    exact absurd (congrArg Char.toNat h1) (by simpa using h)
  · rfl

theorem expectColon_nil : expectColon [] = none := rfl

/-! ### The four accepted URL shapes of extract_http_url -/

theorem extract_http_url_s1 {H P pa : List Char} (hH0 : H ≠ [])
    (hH : H.all notColonSlash = true) (hP0 : P ≠ []) (hP : P.all isDigitC = true)
    (hPaNS : ('/' :: pa).all (fun c => !isSpaceC c) = true) :
    extract_http_url ("http://".data ++ (H ++ ':' :: (P ++ '/' :: pa))) =
      some (H, natOfDigits P % 65536, '/' :: pa) := by
  apply orElse_some
  simp only [httpPat1]
  rw [matchLit_self_append, Option.some_bind]
  rw [scanSet_append hH0 hH (by intro x l2 hx; injection hx with h1 _; rw [← h1]; rfl)]
  rw [Option.some_bind]
  dsimp only
  rw [expectColon_cons, Option.some_bind]
  rw [scanHu_append hP0 hP
    (by intro x l2 hx; injection hx with h1 _; rw [← h1]; rfl)]
  rw [Option.some_bind]
  rw [scanS_all (by simp) hPaNS]
  rfl

theorem extract_http_url_s2 {H pa : List Char} (hH0 : H ≠ [])
    (hH : H.all notColonSlash = true)
    (hPaNS : ('/' :: pa).all (fun c => !isSpaceC c) = true) :
    extract_http_url ("http://".data ++ (H ++ '/' :: pa)) =
      some (H, 80, '/' :: pa) := by
  have hp1 : httpPat1 ("http://".data ++ (H ++ '/' :: pa)) = none := by
    simp only [httpPat1]
    rw [matchLit_self_append, Option.some_bind]
    rw [scanSet_append hH0 hH (by intro x l2 hx; injection hx with h1 _; rw [← h1]; rfl)]
    rw [Option.some_bind]
    rfl
  rw [extract_http_url, orElse_none hp1]
  apply orElse_some
  simp only [httpPat2]
  rw [matchLit_self_append, Option.some_bind]
  rw [scanSet_append hH0 (all_notSlash_of_notColonSlash hH)
    (by intro x l2 hx; injection hx with h1 _; rw [← h1]; rfl)]
  rw [Option.some_bind]
  rw [scanS_all (by simp) hPaNS]
  rfl

theorem extract_http_url_s3 {H P : List Char} (hH0 : H ≠ [])
    (hH : H.all notColonSlash = true) (hP0 : P ≠ []) (hP : P.all isDigitC = true) :
    extract_http_url ("http://".data ++ (H ++ ':' :: P)) =
      some (H, natOfDigits P % 65536, ['/']) := by
  have hscan : scanSet notColonSlash (H ++ ':' :: P) = some (H, ':' :: P) :=
    scanSet_append hH0 hH (by intro x l2 hx; injection hx with h1 _; rw [← h1]; rfl)
  have hhu : scanHu P = some (natOfDigits P % 65536, []) := by
    have := scanHu_append hP0 hP (r := []) (by intro x l2 hx; cases hx)
    simpa using this
  have hp1 : httpPat1 ("http://".data ++ (H ++ ':' :: P)) = none := by
    simp only [httpPat1]
    rw [matchLit_self_append, Option.some_bind, hscan, Option.some_bind]
    dsimp only
    rw [expectColon_cons, Option.some_bind, hhu, Option.some_bind]
    rfl
  have hall2 : (H ++ ':' :: P).all notSlash = true := by
    rw [List.all_append, Bool.and_eq_true]
    refine And.intro (all_notSlash_of_notColonSlash hH) ?_
    rw [List.all_cons, Bool.and_eq_true]
    exact And.intro (by decide) (all_notSlash_of_digits hP)
  have hp2 : httpPat2 ("http://".data ++ (H ++ ':' :: P)) = none := by
    simp only [httpPat2]
    rw [matchLit_self_append, Option.some_bind]
    have := scanSet_append (b := []) (by simp : H ++ ':' :: P ≠ []) hall2
      (by intro x l2 hx; cases hx)
    rw [List.append_nil] at this
    rw [this, Option.some_bind]
    rfl
  rw [extract_http_url, orElse_none hp1, orElse_none hp2]
  apply orElse_some
  simp only [httpPat3]
  rw [matchLit_self_append, Option.some_bind, hscan, Option.some_bind]
  dsimp only
  rw [expectColon_cons, Option.some_bind, hhu]
  rfl

theorem extract_http_url_s4 {H : List Char} (hH0 : H ≠ [])
    (hH : H.all notColonSlash = true) :
    extract_http_url ("http://".data ++ H) = some (H, 80, ['/']) := by
  have hscan : scanSet notColonSlash H = some (H, []) := by
    have := scanSet_append (b := []) hH0 hH (by intro x l2 hx; cases hx)
    rw [List.append_nil] at this
    exact this
  have hscan2 : scanSet notSlash H = some (H, []) := by
    have := scanSet_append (b := []) hH0 (all_notSlash_of_notColonSlash hH)
      (by intro x l2 hx; cases hx)
    rw [List.append_nil] at this
    exact this
  have hp1 : httpPat1 ("http://".data ++ H) = none := by
    simp only [httpPat1]
    rw [matchLit_self_append, Option.some_bind, hscan, Option.some_bind]
    rfl
  have hp2 : httpPat2 ("http://".data ++ H) = none := by
    simp only [httpPat2]
    rw [matchLit_self_append, Option.some_bind, hscan2, Option.some_bind]
    rfl
  have hp3 : httpPat3 ("http://".data ++ H) = none := by
    simp only [httpPat3]
    rw [matchLit_self_append, Option.some_bind, hscan, Option.some_bind]
    rfl
  rw [extract_http_url, orElse_none hp1, orElse_none hp2, orElse_none hp3]
  simp only [httpPat4]
  rw [matchLit_self_append, Option.some_bind, hscan2]
  rfl

/-! ### Acceptance characterization for extract_http_url -/

theorem extract_http_url_none_iff (v : List Char) :
    extract_http_url ("http://".data ++ v) = none ↔ (v = [] ∨ v.head? = some '/') := by
  constructor
  · intro h
    obtain ⟨h1, h234⟩ := orElse_eq_none_parts h
    obtain ⟨h2, h34⟩ := orElse_eq_none_parts h234
    obtain ⟨h3, h4⟩ := orElse_eq_none_parts h34
    cases v with
    | nil => exact Or.inl rfl
    | cons c r =>
      by_cases hc : c = '/'
      · exact Or.inr (by simp [hc])
      · exfalso
        have hcn : notSlash c = true := by
          simp only [notSlash, bne_iff_ne, ne_eq]
          intro hcc
          exact hc (char_eq_of_toNat (d := '/') (by simpa using hcc))
        simp only [httpPat4] at h4
        rw [matchLit_self_append, Option.some_bind] at h4
        simp only [scanSet] at h4
        rw [List.takeWhile_cons_of_pos hcn] at h4
        simp at h4
  · intro h
    cases h with
    | inl h => subst h; rfl
    | inr h =>
      obtain ⟨r, rfl⟩ : ∃ r, v = '/' :: r := by
        cases v with
        | nil => simp at h
        | cons c r => simp only [List.head?_cons, Option.some_inj] at h; exact ⟨r, by rw [h]⟩
      have hfail : ∀ p : Char → Bool, p '/' = false →
          scanSet p ('/' :: r) = none := by
        intro p hp
        exact scanSet_fail (by intro x l2 hx; injection hx with h1 _; rw [← h1]; exact hp)
      have hp1 : httpPat1 ("http://".data ++ '/' :: r) = none := by
        simp only [httpPat1]
        rw [matchLit_self_append, Option.some_bind, hfail notColonSlash rfl]
        rfl
      have hp2 : httpPat2 ("http://".data ++ '/' :: r) = none := by
        simp only [httpPat2]
        rw [matchLit_self_append, Option.some_bind, hfail notSlash rfl]
        rfl
      have hp3 : httpPat3 ("http://".data ++ '/' :: r) = none := by
        simp only [httpPat3]
        rw [matchLit_self_append, Option.some_bind, hfail notColonSlash rfl]
        rfl
      have hp4 : httpPat4 ("http://".data ++ '/' :: r) = none := by
        simp only [httpPat4]
        rw [matchLit_self_append, Option.some_bind, hfail notSlash rfl]
        rfl
      rw [extract_http_url, orElse_none hp1, orElse_none hp2, orElse_none hp3]
      exact hp4

/-! ### Scheme normalization under case-insensitive match -/

theorem startsWithCI_cons {p : Char} {ps u : List Char}
    (h : startsWithCI (p :: ps) u = true) :
    ∃ c r, u = c :: r ∧ c.toLower = p.toLower ∧ startsWithCI ps r = true := by
  cases u with
  | nil => simp [startsWithCI] at h
  | cons c r =>
    simp only [startsWithCI, Bool.and_eq_true, decide_eq_true_eq] at h
    exact ⟨c, r, rfl, h.1, h.2⟩

theorem normalizeHttp_of_startsWithCI {u : List Char}
    (h : startsWithCI "http://".data u = true) :
    normalizeHttp u = "http://".data ++ u.drop 7 := by
  have h0 : startsWithCI ('h' :: 't' :: 't' :: 'p' :: ':' :: '/' :: '/' :: []) u = true := h
  obtain ⟨c1, u1, rfl, _, h1⟩ := startsWithCI_cons h0
  obtain ⟨c2, u2, rfl, _, h2⟩ := startsWithCI_cons h1
  obtain ⟨c3, u3, rfl, _, h3⟩ := startsWithCI_cons h2
  obtain ⟨c4, u4, rfl, _, h4⟩ := startsWithCI_cons h3
  obtain ⟨c5, u5, rfl, e5, h5⟩ := startsWithCI_cons h4
  obtain ⟨c6, u6, rfl, e6, h6⟩ := startsWithCI_cons h5
  obtain ⟨c7, u7, rfl, e7, _⟩ := startsWithCI_cons h6
  have hc5 : c5 = ':' := toLower_fix c5 ':' (by left; decide) (by simpa using e5)
  have hc6 : c6 = '/' := toLower_fix c6 '/' (by left; decide) (by simpa using e6)
  have hc7 : c7 = '/' := toLower_fix c7 '/' (by left; decide) (by simpa using e7)
  subst hc5 hc6 hc7
  rfl



/-- Helpers to peel `List.all` across appends and cons. -/
theorem all_of_append_right {α : Type} {p : α → Bool} {a b : List α}
    (h : (a ++ b).all p = true) : b.all p = true := by
  rw [List.all_append, Bool.and_eq_true] at h
  exact h.2

theorem all_of_cons_tail {α : Type} {p : α → Bool} {x : α} {xs : List α}
    (h : (x :: xs).all p = true) : xs.all p = true := by
  rw [List.all_cons, Bool.and_eq_true] at h
  exact h.2

/-- On inputs of the four spec shapes, the code's parser returns exactly
the spec's (host, port, path) (port below 2^16, url token free of
whitespace as produced by the request-line split). -/
theorem extract_http_url_refines_spec {v : List Char} {out : List Char × Nat × List Char}
    (hns : v.all (fun c => !isSpaceC c) = true)
    (hspec : spec_four_shapes v = some out) (hport : out.2.1 < 65536) :
    extract_http_url ("http://".data ++ v) = some out := by
  have hsplit := List.takeWhile_append_dropWhile (p := notColonSlash) (l := v)
  have hHall : (v.takeWhile notColonSlash).all notColonSlash = true := all_takeWhile _ _
  simp only [spec_four_shapes] at hspec
  split at hspec
  · exact absurd hspec (by simp)
  · rename_i hH0
    have hH0' : v.takeWhile notColonSlash ≠ [] := by
      simpa [List.isEmpty_iff] using hH0
    split at hspec
    · -- r = [] : shape http://H
      rename_i heq
      rw [heq, List.append_nil] at hsplit
      simp only [Option.some_inj] at hspec
      subst hspec
      have hs := extract_http_url_s4 hH0' hHall
      rw [hsplit] at hs ⊢
      exact hs
    · -- r = ':' :: r2
      rename_i r2 heq
      have hr2 := List.takeWhile_append_dropWhile (p := isDigitC) (l := r2)
      rw [heq] at hsplit
      split at hspec
      · exact absurd hspec (by simp)
      · rename_i hP0
        have hP0' : r2.takeWhile isDigitC ≠ [] := by
          simpa [List.isEmpty_iff] using hP0
        have hPall : (r2.takeWhile isDigitC).all isDigitC = true := all_takeWhile _ _
        split at hspec
        · -- r3 = [] : shape http://H:P
          rename_i heq3
          rw [heq3, List.append_nil] at hr2
          simp only [Option.some_inj] at hspec
          subst hspec
          have hv : v.takeWhile notColonSlash ++ ':' :: r2.takeWhile isDigitC = v := by
            rw [hr2]
            exact hsplit
          have hs := extract_http_url_s3 hH0' hHall hP0' hPall
          rw [Nat.mod_eq_of_lt (by simpa using hport)] at hs
          rw [hv] at hs
          exact hs
        · -- r3 = '/' :: t : shape http://H:P/Pa
          rename_i t heq3
          simp only [Option.some_inj] at hspec
          subst hspec
          rw [heq3] at hr2
          have hv : v.takeWhile notColonSlash ++
              ':' :: (r2.takeWhile isDigitC ++ '/' :: t) = v := by
            rw [hr2]
            exact hsplit
          have hnsPa : (('/' :: t).all fun c => !isSpaceC c) = true := by
            rw [← hv] at hns
            exact all_of_append_right (all_of_cons_tail (all_of_append_right hns))
          have hs := extract_http_url_s1 hH0' hHall hP0' hPall hnsPa
          rw [Nat.mod_eq_of_lt (by simpa using hport)] at hs
          rw [hv] at hs
          rw [heq3]
          exact hs
        · -- r3 starts with a non-slash character: the spec rejects
          exact absurd hspec (by simp)
    · -- r = '/' :: t : shape http://H/Pa
      rename_i t heq
      simp only [Option.some_inj] at hspec
      subst hspec
      rw [heq] at hsplit
      have hnsPa : (('/' :: t).all fun c => !isSpaceC c) = true := by
        rw [← hsplit] at hns
        exact all_of_append_right hns
      have hs := extract_http_url_s2 hH0' hHall hnsPa
      rw [hsplit] at hs
      rw [heq]
      exact hs
    · -- r starts with a character that is neither ':' nor '/': impossible
      exact absurd hspec (by simp)



/-! ### Claim C3 -/

/-- Claim C3 counterexample: the url `http://h:80junk` is not one of the
four claimed shapes (the bytes after the port do not begin with `/`),
yet `extract_http_url` accepts it, yielding host `h`, port 80 and path
`junk`, and `process_request` forwards that parse — so the parser does
not accept exactly the four shapes. -/
theorem c3_counterexample :
    extract_http_url "http://h:80junk".data = some ("h".data, 80, "junk".data) ∧
    spec_four_shapes "h:80junk".data = none ∧
    process_request {} "GET http://h:80junk HTTP/1.0" =
      .ok { method := "GET", host := "h", port := 80, path := some "junk" } false := by
  decide

/-- Claim C3 (amended): for a url token case-insensitively beginning with
`http://`, the scheme is normalized in place; the parser rejects (400)
exactly when nothing, or a `/`, immediately follows `http://`; and on
every url of one of the four claimed shapes `http://H:P/Pa`,
`http://H/Pa`, `http://H:P`, `http://H` (H nonempty without `:` or `/`,
P a digit run below 2^16, Pa beginning with `/`) it produces exactly
(host=H, port=P or default 80, path=Pa or default "/").  Acceptance is
however broader than the four shapes (see the counterexample): trailing
bytes after the port become the path even without a leading `/`. -/
theorem c3_amended :
    (∀ u, startsWithCI "http://".data u = true →
        normalizeHttp u = "http://".data ++ u.drop 7) ∧
    (∀ v, extract_http_url ("http://".data ++ v) = none ↔
        (v = [] ∨ v.head? = some '/')) ∧
    (∀ v out, spec_four_shapes v = some out →
        v.all (fun c => !isSpaceC c) = true → out.2.1 < 65536 →
        extract_http_url ("http://".data ++ v) = some out) :=
  ⟨fun _ h => normalizeHttp_of_startsWithCI h,
   fun v => extract_http_url_none_iff v,
   fun _ _ hs hns hp => extract_http_url_refines_spec hns hs hp⟩

theorem c3_witness :
    normalizeHttp "HtTp://h:8080/p".data = "http://".data ++ "h:8080/p".data ∧
    extract_http_url ("http://".data ++ "h:8080/p".data) =
      some ("h".data, 8080, "/p".data) ∧
    extract_http_url ("http://".data ++ "/p".data) = none := by
  refine ⟨c3_amended.1 "HtTp://h:8080/p".data (by decide), ?_, ?_⟩
  · exact c3_amended.2.2 "h:8080/p".data ("h".data, 8080, "/p".data)
      (by decide) (by decide) (by decide)
  · exact (c3_amended.2.1 "/p".data).mpr (by decide)

/-! ### Claim C4 -/

/-- Claim C4 counterexample: `CONNECT h:80x` — the url `h:80x` is not an
authority form `H:P`, yet `extract_ssl_url` accepts it as (h, 80),
silently dropping the trailing `x`, and `connect_method` is set; so
connect_method = true does not imply the url was an authority form. -/
theorem c4_counterexample :
    extract_ssl_url "h:80x".data = some ("h".data, 80) ∧
    isAuthorityForm "h:80x".data = false ∧
    process_request {} "CONNECT h:80x HTTP/1.0" =
      .ok { method := "CONNECT", host := "h", port := 80, path := none } true := by
  decide

/-- Claim C4 (amended): a CONNECT url is parsed by taking the longest
colon-free prefix as H and reading a port after the `:`, ignoring any
trailing bytes after the digits; when that pattern fails, the whole
(whitespace-free, colon-free) token is H with port defaulting to 443;
and `connect_method` is true only for requests whose method token is
`CONNECT`, whose url does not begin case-insensitively with `http://`,
and whose url `extract_ssl_url` accepts. -/
theorem c4_amended :
    (∀ H ds junk, H ≠ [] → H.all notColon = true → ds ≠ [] →
        ds.all isDigitC = true → (∀ x l2, junk = x :: l2 → isDigitC x = false) →
        extract_ssl_url (H ++ ':' :: (ds ++ junk)) =
          some (H, natOfDigits ds % 65536)) ∧
    (∀ v, v ≠ [] → v.all notColon = true → v.all (fun c => !isSpaceC c) = true →
        extract_ssl_url v = some (v, 443)) ∧
    (∀ cfg line r cm, process_request cfg line = .ok r cm → cm = true →
        ∃ m u pr, scanfRequestLine line.data = some (m, u, pr) ∧
          (⟨m⟩ : String) = "CONNECT" ∧ startsWithCI "http://".data u = false ∧
          extract_ssl_url u = some (r.host.data, r.port)) := by
  refine ⟨?_, ?_, ?_⟩
  · intro H ds junk hH0 hH hds0 hds hjunk
    apply orElse_some
    simp only [sslPat1]
    rw [scanSet_append hH0 hH
      (by intro x l2 hx; injection hx with h1 _; rw [← h1]; rfl)]
    rw [Option.some_bind]
    dsimp only
    rw [expectColon_cons, Option.some_bind]
    rw [scanHu_append hds0 hds hjunk]
    rfl
  · intro v hv0 hvc hvns
    have hp1 : sslPat1 v = none := by
      simp only [sslPat1]
      have := scanSet_append (b := []) hv0 hvc (by intro x l2 hx; cases hx)
      rw [List.append_nil] at this
      rw [this, Option.some_bind]
      dsimp only
      rw [expectColon_nil]
      rfl
    rw [extract_ssl_url, orElse_none hp1]
    rw [scanS_all hv0 hvns]
    rfl
  · intro cfg line r cm h hcm
    subst hcm
    unfold process_request at h
    split at h
    · cases h
    · rename_i m u pr heq
      split at h
      · -- http:// branch sets connect_method to false
        split at h
        · cases h
        · exfalso
          unfold requestGates at h
          split at h
          · cases h
          · split at h
            · cases h
            · cases h
      · split at h
        · -- CONNECT branch
          rename_i hu hconnect
          split at h
          · cases h
          · rename_i hp pt hss
            unfold requestGates at h
            split at h
            · cases h
            · split at h
              · cases h
              · cases h
                exact ⟨m, u, pr, heq, hconnect,
                  Bool.not_eq_true _ ▸ (by simpa using hu), hss⟩
        · cases h

theorem c4_witness :
    extract_ssl_url ("h".data ++ ':' :: ("443".data ++ [])) =
      some ("h".data, natOfDigits "443".data % 65536) ∧
    extract_ssl_url "host".data = some ("host".data, 443) :=
  ⟨c4_amended.1 "h".data "443".data [] (by decide) (by decide) (by decide) (by decide)
      (by intro x l2 hx; cases hx),
   c4_amended.2.1 "host".data (by decide) (by decide) (by decide)⟩

/-! ### Claim C8 -/

/-- Claim C8 counterexample: the request line `"\t http://h/"` has only
one whitespace-separated token, yet the sscanf split (whose scansets
exclude only the space byte) yields method `"\t"` and url `http://h/`,
so the request is accepted and an origin connection to h:80 is dialled
instead of a 400 being returned. -/
theorem c8_counterexample :
    (wsTokens "\t http://h/".data).length = 1 ∧
    process_request {} "\t http://h/" =
      .ok { method := "\t", host := "h", port := 80, path := some "/" } false ∧
    serverDial {} "\t http://h/" = some ("h", 80) := by
  decide

/-- Claim C8 (amended): a request line on which the sscanf split
`"%[^ ] %[^ ] %[^ ]"` assigns fewer than two tokens — rather than one
with fewer than two whitespace-separated tokens, since tabs count as
token bytes — and likewise any split line whose url does not begin
case-insensitively with `http://` and whose method is not `CONNECT`,
yields a 400 and no outbound connection (tunnel mode off). -/
theorem c8_amended (cfg : Config) (line : String) (htun : cfg.tunnel = none) :
    (scanfRequestLine line.data = none →
        process_request cfg line = .err400 ∧ serverDial cfg line = none) ∧
    (∀ m u pr, scanfRequestLine line.data = some (m, u, pr) →
        startsWithCI "http://".data u = false → (⟨m⟩ : String) ≠ "CONNECT" →
        process_request cfg line = .err400 ∧ serverDial cfg line = none) := by
  have hdial : process_request cfg line = .err400 → serverDial cfg line = none := by
    intro h
    unfold serverDial
    rw [htun]
    dsimp only
    rw [h]
  constructor
  · intro h
    have hp : process_request cfg line = .err400 := by
      unfold process_request
      rw [h]
    exact ⟨hp, hdial hp⟩
  · intro m u pr h h1 h2
    have hp : process_request cfg line = .err400 := by
      unfold process_request
      rw [h]
      dsimp only
      rw [if_neg (by rw [h1]; exact Bool.false_ne_true), if_neg h2]
    exact ⟨hp, hdial hp⟩

theorem c8_witness :
    process_request {} "GET / HTTP/1.0" = .err400 ∧
    serverDial {} "GET / HTTP/1.0" = none :=
  (c8_amended {} "GET / HTTP/1.0" rfl).2 "GET".data "/".data (some "HTTP/1.0".data)
    (by decide) (by decide) (by decide)

/-! ### Toolkit: header map lemmas -/

theorem mem_hashmap_remove {m : Hashmap} {k : String} {e : String × String} :
    e ∈ hashmap_remove m k ↔ e ∈ m ∧ e.1 ≠ lowerS k := by
  simp [hashmap_remove, List.mem_filter, bne_iff_ne]

theorem foldl_remove_eq_filter {α : Type} (f : α → String) (ks : List α) (m : Hashmap) :
    ks.foldl (fun acc k => hashmap_remove acc (f k)) m =
      m.filter (fun e => ks.all (fun k => e.1 != lowerS (f k))) := by
  induction ks generalizing m with
  | nil => simp
  | cons k ks ih =>
    simp only [List.foldl_cons]
    rw [ih]
    simp only [hashmap_remove]
    rw [List.filter_filter]
    apply List.filter_congr
    intro e _
    rw [List.all_cons, Bool.and_comm]

theorem all_filter_nonempty (ss : List (List Char)) (p : List Char → Bool) :
    (ss.filter (fun t => !t.isEmpty)).all p = ss.all (fun t => t.isEmpty || p t) := by
  induction ss with
  | nil => rfl
  | cons t ts ih =>
    cases h : t.isEmpty with
    | true => simp [List.filter_cons, List.all_cons, h, ih]
    | false => simp [List.filter_cons, List.all_cons, h, ih]

theorem remove_connection_headers_eq_filter (m : Hashmap) (data : String) :
    remove_connection_headers m data =
      m.filter (fun e =>
        (connRemovalTokens data.data).all (fun t => e.1 != lowerS ⟨t⟩)) := by
  unfold remove_connection_headers
  exact foldl_remove_eq_filter (fun t => (⟨t⟩ : String)) (connRemovalTokens data.data) m

theorem skipStage_eq_filter (m2 : Hashmap) :
    skipStage m2 = m2.filter (fun e => skipheaders.all (fun k => e.1 != lowerS k)) := by
  unfold skipStage
  exact foldl_remove_eq_filter (fun k => k) skipheaders m2

theorem mem_connectionStage {m : Hashmap} {e : String × String}
    (h : e ∈ connectionStage m) : e ∈ m := by
  unfold connectionStage at h
  split at h
  · rw [mem_hashmap_remove] at h
    have h2 := h.1
    rw [remove_connection_headers_eq_filter] at h2
    exact (List.mem_filter.mp h2).1
  · exact h

theorem mem_viaStage {m1 : Hashmap} {e : String × String}
    (h : e ∈ viaStage m1) : e ∈ m1 := by
  unfold viaStage at h
  split at h
  · exact (mem_hashmap_remove.mp h).1
  · exact h

theorem anonEmit_names {cfg : Config} {m3 : Hashmap} {p : String × String}
    (h : p ∈ anonEmit cfg m3) : ∃ e ∈ m3, p.1 = e.1 := by
  unfold anonEmit at h
  rw [List.mem_filterMap] at h
  obtain ⟨k, hk, hif⟩ := h
  rw [hashmap_keys, List.mem_map] at hk
  obtain ⟨e, he, rfl⟩ := hk
  split at hif
  · injection hif with h1
    exact ⟨e, he, by rw [← h1]⟩
  · cases hif

/-! ### Claim C5 -/

/-- Claim C5: with a `Connection: v` header present, the header map
passed on to emission is exactly the original map minus every nonempty
token of `v` under the delimiter set `()<>@,;:\\\"/[]?={} \t` (removed as
a case-insensitive header name) minus the `connection` entry itself; the
first (possibly empty) walked token is harmless because header names are
nonempty.  This stage runs before any header is emitted
(`clientHeaderLines` builds its emission list from its result). -/
theorem c5_connection_header_removal (m : Hashmap) (v : String)
    (hfound : hashmap_search m "connection" = some v)
    (hk : ∀ e ∈ m, e.1 ≠ "") :
    connectionStage m =
      m.filter (fun e =>
        e.1 != "connection" &&
          (splitSegs isConnDelim v.data).all
            (fun t => t.isEmpty || e.1 != lowerS ⟨t⟩)) := by
  unfold connectionStage
  rw [hfound]
  simp only [hashmap_remove]
  rw [remove_connection_headers_eq_filter]
  rw [List.filter_filter]
  apply List.filter_congr
  intro e he
  have hne : e.1 ≠ "" := hk e he
  have hlc : lowerS "connection" = "connection" := by decide
  rw [hlc]
  congr 1
  unfold connRemovalTokens
  cases hsegs : splitSegs isConnDelim v.data with
  | nil => rfl
  | cons s ss =>
    rw [List.all_cons, List.all_cons, all_filter_nonempty]
    congr 1
    cases hs : s.isEmpty with
    | true =>
      have hsnil : s = [] := by
        cases s with
        | nil => rfl
        | cons a b => simp [List.isEmpty] at hs
      subst hsnil
      have : lowerS ⟨[]⟩ = "" := by decide
      rw [this]
      simp [bne_iff_ne, hne]
    | false => simp

theorem c5_witness :
    connectionStage
        [("host", "h"), ("connection", "Keep-Alive, X-Foo"), ("x-foo", "1"),
         ("accept", "text")] =
      [("host", "h"), ("accept", "text")] := by
  rw [c5_connection_header_removal _ "Keep-Alive, X-Foo" (by decide) (by decide)]
  decide

/-! ### Claim C7 -/

/-- Claim C7: for every request forwarded to an origin or upstream, the
emitted header section contains exactly one `Host` header, exactly one
`Connection` header whose value is `close` (both our own), and no header
derived from the client's map carries one of the hop-by-hop names
`host, connection, keep-alive, proxy-authenticate, proxy-authorization,
te, trailers, transfer-encoding, upgrade` (the map stores names
lowercased, hypothesis `hk`). -/
theorem c7_emitted_upstream_invariant (cfg : Config) (proto : Nat × Nat)
    (hostname clientIP : String) (r : RequestS) (m : Hashmap)
    (hk : ∀ e ∈ m, lowerS e.1 = e.1) :
    ((emittedUpstreamHeaders cfg proto hostname clientIP r m).countP
        (fun e => lowerS e.1 == "host") = 1) ∧
    ((emittedUpstreamHeaders cfg proto hostname clientIP r m).filter
        (fun e => lowerS e.1 == "connection") = [("Connection", "close")]) ∧
    (∀ p ∈ (clientHeaderLines cfg proto hostname clientIP m).1,
        ∀ k ∈ skipheaders, lowerS p.1 ≠ k) := by
  have hlowerskips : ∀ k ∈ skipheaders, lowerS k = k := by decide
  have key3 : ∀ p ∈ (clientHeaderLines cfg proto hostname clientIP m).1,
      ∀ k ∈ skipheaders, lowerS p.1 ≠ k := by
    intro p hp k hkk
    simp only [clientHeaderLines] at hp
    rw [List.mem_cons] at hp
    cases hp with
    | inl hvia =>
      subst hvia
      have hv : (viaLineOf proto hostname (connectionStage m)).1 = "Via" := by
        unfold viaLineOf
        split <;> rfl
      rw [hv]
      exact (by decide : ∀ k2 ∈ skipheaders, lowerS "Via" ≠ k2) k hkk
    | inr hp2 =>
      rw [List.mem_append] at hp2
      cases hp2 with
      | inl hanon =>
        obtain ⟨e, he, hpe⟩ := anonEmit_names hanon
        rw [skipStage_eq_filter, List.mem_filter] at he
        have hem : e ∈ m := mem_connectionStage (mem_viaStage he.1)
        have hne : e.1 ≠ lowerS k := by
          have hall := (List.all_eq_true.mp he.2) k hkk
          simpa [bne_iff_ne] using hall
        rw [hpe, hk e hem, ← hlowerskips k hkk]
        exact hne
      | inr hx =>
        unfold xtinyLines at hx
        split at hx
        · rw [List.mem_singleton] at hx
          subst hx
          exact (by decide : ∀ k2 ∈ skipheaders, lowerS "X-Tinyproxy" ≠ k2) k hkk
        · cases hx
  refine ⟨?_, ?_, key3⟩
  · simp only [emittedUpstreamHeaders, List.countP_cons]
    have h0 : (clientHeaderLines cfg proto hostname clientIP m).1.countP
        (fun e => lowerS e.1 == "host") = 0 := by
      rw [List.countP_eq_zero]
      intro p hp hq
      exact key3 p hp "host" (by decide) (by simpa using hq)
    rw [h0]
    rw [if_neg (by decide : ¬((lowerS "Connection" == "host") = true)),
      if_pos (by decide : (lowerS "Host" == "host") = true)]
  · simp only [emittedUpstreamHeaders, List.filter_cons]
    rw [if_neg (by decide : ¬((lowerS "Host" == "connection") = true)),
      if_pos (by decide : (lowerS "Connection" == "connection") = true)]
    have h0 : (clientHeaderLines cfg proto hostname clientIP m).1.filter
        (fun e => lowerS e.1 == "connection") = [] := by
      rw [List.filter_eq_nil_iff]
      intro p hp hq
      exact key3 p hp "connection" (by decide) (by simpa using hq)
    rw [h0]

theorem c7_witness :
    ((emittedUpstreamHeaders {} (1, 1) "hn" "ip"
          { method := "GET", host := "example.org", port := 80, path := some "/" }
          [("host", "example.org"), ("connection", "keep-alive"),
           ("transfer-encoding", "chunked"), ("accept", "text")]).countP
        (fun e => lowerS e.1 == "host") = 1) ∧
    ((emittedUpstreamHeaders {} (1, 1) "hn" "ip"
          { method := "GET", host := "example.org", port := 80, path := some "/" }
          [("host", "example.org"), ("connection", "keep-alive"),
           ("transfer-encoding", "chunked"), ("accept", "text")]).filter
        (fun e => lowerS e.1 == "connection") = [("Connection", "close")]) ∧
    (∀ p ∈ (clientHeaderLines {} (1, 1) "hn" "ip"
          [("host", "example.org"), ("connection", "keep-alive"),
           ("transfer-encoding", "chunked"), ("accept", "text")]).1,
        ∀ k ∈ skipheaders, lowerS p.1 ≠ k) :=
  c7_emitted_upstream_invariant {} (1, 1) "hn" "ip"
    { method := "GET", host := "example.org", port := 80, path := some "/" }
    [("host", "example.org"), ("connection", "keep-alive"),
     ("transfer-encoding", "chunked"), ("accept", "text")]
    (by decide)

/-! ### Claim C10 -/

theorem get_all_headers_wellformed (hdrs rest : List String) (m : Hashmap)
    (hb : ∀ l ∈ hdrs, l ≠ "" ∧ l.data.any (fun c => c.toNat == 58) = true) :
    ∃ m2, get_all_headers (hdrs ++ "" :: rest) m = some (m2, rest) := by
  induction hdrs generalizing m with
  | nil => exact ⟨m, by simp [get_all_headers]⟩
  | cons l ls ih =>
    obtain ⟨hne, hcolon⟩ := hb l (by simp)
    have hbs : ∀ l2 ∈ ls, l2 ≠ "" ∧ l2.data.any (fun c => c.toNat == 58) = true := by
      intro l2 hl2
      exact hb l2 (by simp [hl2])
    simp only [List.cons_append, get_all_headers]
    rw [if_neg hne]
    unfold add_header_to_connection
    rw [if_pos hcolon]
    exact ih _ hbs

/-- Claim C10: on every path through the header-processing stage —
including when an error body was already written (`respSent`) — the
entire well-formed header block is consumed from the client; and when the
server handle is absent or the request is a direct CONNECT with no
upstream, no header bytes and no body bytes are written to the server. -/
theorem c10_headers_consumed (cfg : Config)
    (serverPresent connectMethod respSent : Bool) (proto : Nat × Nat)
    (hostname clientIP : String) (hdrs rest : List String) (body : List Nat)
    (hb : ∀ l ∈ hdrs, l ≠ "" ∧ l.data.any (fun c => c.toNat == 58) = true) :
    (process_client_headers cfg serverPresent connectMethod respSent proto hostname
        clientIP (hdrs ++ "" :: rest) body).remaining = rest ∧
    (serverPresent = false ∨ (connectMethod = true ∧ upstreamConfigured cfg = false) →
      (process_client_headers cfg serverPresent connectMethod respSent proto hostname
          clientIP (hdrs ++ "" :: rest) body).serverHeaders = [] ∧
      (process_client_headers cfg serverPresent connectMethod respSent proto hostname
          clientIP (hdrs ++ "" :: rest) body).forwardedBody = []) := by
  obtain ⟨m2, hget⟩ := get_all_headers_wellformed hdrs rest [] hb
  constructor
  · unfold process_client_headers
    rw [hget]
    dsimp only
    split
    · rfl
    · split
      · split <;> rfl
      · rfl
  · intro hguard
    have hg : (!serverPresent || (connectMethod && !upstreamConfigured cfg)) = true := by
      cases hguard with
      | inl h => rw [h]; rfl
      | inr h => rw [h.1, h.2]; simp
    unfold process_client_headers
    rw [hget]
    dsimp only
    rw [if_pos hg]
    exact ⟨rfl, rfl⟩

theorem c10_witness :
    (process_client_headers {} false false true (1, 0) "hn" "ip"
        (["Accept: text"] ++ "" :: ["tail"]) []).remaining = ["tail"] ∧
    (process_client_headers {} false false true (1, 0) "hn" "ip"
        (["Accept: text"] ++ "" :: ["tail"]) []).serverHeaders = [] := by
  have h := c10_headers_consumed {} false false true (1, 0) "hn" "ip"
    ["Accept: text"] ["tail"] [] (by decide)
  exact ⟨h.1, (h.2 (Or.inl rfl)).1⟩

/-! ### Claim C9 -/

/-- Claim C9: each relay iteration passes `select` a timeout equal to
`idletimeout - (now - last_access)`; a timeout wake with elapsed idle
time strictly above `idletimeout` ends the relay normally; and a
readiness wake that continues the loop refreshes `last_access` to the
wake time. -/
theorem c9_relay_timing (T : Nat) (st : RelayConn) (last : Nat) (e : RelayEvent)
    (es : List RelayEvent) :
    ((relayStep T st last e).1 = (T : Int) - ((e.enter : Int) - (last : Int))) ∧
    (e.outcome = .timeout → T < e.wake - last →
        relayRun T (e :: es) st last = .normal st) ∧
    (∀ sr cr sw cw sd cd sa ca st2 last2,
        e.outcome = .ready sr cr sw cw sd cd sa ca →
        (relayStep T st last e).2 = .cont st2 last2 → last2 = e.wake) := by
  refine ⟨rfl, ?_, ?_⟩
  · intro hout htime
    have hstep : (relayStep T st last e).2 = .exitNormal st := by
      simp only [relayStep]
      rw [hout]
      dsimp only
      rw [if_pos htime]
    simp only [relayRun]
    rw [hstep]
  · intro sr cr sw cw sd cd sa ca st2 last2 hout hstep
    simp only [relayStep] at hstep
    rw [hout] at hstep
    dsimp only at hstep
    split at hstep
    · cases hstep
    · split at hstep
      · cases hstep
      · split at hstep
        · cases hstep
        · split at hstep
          · cases hstep
          · injection hstep with _ h2
            exact h2.symm

theorem c9_witness :
    relayRun 1 [{ enter := 5, wake := 5, outcome := .timeout }]
        { sbuffer := [], cbuffer := [] } 0 =
      .normal { sbuffer := [], cbuffer := [] } :=
  (c9_relay_timing 1 { sbuffer := [], cbuffer := [] } 0
      { enter := 5, wake := 5, outcome := .timeout } []).2.1 rfl (by decide)

/-! ### Claim C6 -/

/-- Claim C6 failing evaluation: a captured `Content-Length` of 0 makes
the body pump fail instead of trivially succeeding: the do/while body
runs once, `safe_read` is called with count `min(MAXBUFFSIZE, 0) = 0`,
returns 0, and that is treated as a premature close (-1), so
`process_client_headers` reports failure for a perfectly normal request.
For any positive length the pump forwards the bytes as claimed
(third conjunct shows 3 bytes pumped). -/
theorem c6_zero_content_length_fails :
    pull_client_data false [1, 2, 3] 0 = none ∧
    pull_client_data true [] 0 = none ∧
    pull_client_data false [1, 2, 3] 3 = some [1, 2, 3] ∧
    process_client_headers {} true false false (1, 0) "hn" "ip"
        ["Content-Length: 0", ""] [] =
      { remaining := [],
        serverHeaders := [("Via", "1.0 hn (tinyproxy/1.5.3)"),
          ("content-length", "0")],
        forwardedBody := [], ok := false } := by
  decide

/-! ### Claim C2 -/

/-- Claim C2 failing evaluation: in upstream CONNECT mode the rewritten
request-target is built with `snprintf(buf, strlen(host) + 6, "%s:%d",
host, port)`, which is one byte short for 5-digit ports: host `h`, port
10000 emits `CONNECT h:1000 HTTP/1.0` — the final digit of the port is
truncated, so the emitted target is not exactly `H:P`.  (With a 4-digit
port the string fits, third conjunct.) -/
theorem c2_connect_truncation :
    upstream_combined_string true "h" "" 10000 = "h:1000" ∧
    connect_to_upstream_lines true
        { method := "CONNECT", host := "h", port := 10000, path := none } =
      ["CONNECT h:1000 HTTP/1.0", "Host: h", "Connection: close"] ∧
    upstream_combined_string true "h" "" 9999 = "h:9999" ∧
    upstream_combined_string false "h" "/p" 10000 = "http://h:10000/p" := by
  decide

/-! ### Claim C1 -/

/-- Claim C1 failing evaluation: a relay run that buffers the client byte
7 into C2S and then breaks on a failed server read leaves C2S = [7];
the post-loop drain then writes both remainders to the client socket —
`relay_after_loop` yields ([7], []): the server socket receives nothing,
although the code's own comment says "Try to send any remaining data to
the server". -/
theorem c1_drain_written_to_client :
    relayRun 600
        [{ enter := 0, wake := 1,
           outcome := .ready false true false false none (some [7]) none none },
         { enter := 1, wake := 2,
           outcome := .ready true false false false none none none none }]
        { sbuffer := [], cbuffer := [] } 0 =
      .broke { sbuffer := [], cbuffer := [7] } ∧
    relay_after_loop { sbuffer := [], cbuffer := [7] } = ([7], []) := by
  decide

end Tinyproxy
